import Mathlib

/-!
# Verification of `blinkpy/tool/commands/build_resolver.py`

A shallow embedding of the build-status resolver: the `BuildResolver`
class (`resolve_builds`, `fetch_or_trigger_try_jobs`,
`_status_if_interrupted`, `_fetch_swarming_summary`,
`_build_statuses_from_responses`, `_shard_interrupted`,
`_build_sort_key`) together with the external boundaries it consumes
(Buildbucket batch client, GitCL, web fetches), which are modelled as an
explicit environment of pure response functions.  Machine-level effects
(network calls, logging, exceptions) are made explicit: fallible
operations return `Except`, the trace of user-visible events is an
explicit list, and Python dictionaries are association lists with
Python's insertion/update semantics.
-/

set_option maxHeartbeats 1000000

/-- `TryJobStatus` from `blinkpy.common.net.git_cl`: a `(status, result)`
pair of strings (the `result` component is optional). -/
abbrev TryJobStatus := String × Option String

/-- Modelled from the spec: the `Build` identifier named tuple lives in
`blinkpy/common/net/rpc.py`, which is not among the sources.  Per the
spec's data model it carries a builder name, an optional build number,
an optional opaque internal id (populated after resolution), and a
bucket that defaults to the try bucket. -/
structure Build where
  builder_name : String
  build_number : Option Nat := none
  build_id : Option String := none
  bucket : String := "try"
deriving DecidableEq

/-- One entry of a step's `logs` list in a raw Buildbucket record. -/
structure LogEntry where
  name : String
  viewUrl : String
deriving DecidableEq

/-- One entry of `steps` in a raw Buildbucket record. -/
structure Step where
  name : String
  logs : List LogEntry := []
deriving DecidableEq

/-- One shard record of a swarming summary; `exit_code` is absent when
the shard reported none. -/
structure Shard where
  exit_code : Option Int := none
deriving DecidableEq

/-- The parsed swarming summary JSON (`chromium_swarming.summary`). -/
structure Summary where
  shards : List Shard := []
deriving DecidableEq

/-- A raw build record as returned by Buildbucket, restricted to the
fields requested by `BuildResolver._build_fields`.  For
`output.properties.failure_type`, `none` models an absent key and
`some none` models a JSON `null` value (Python's `.get` conflates the
two). -/
structure RawBuild where
  id : String
  number : Nat
  builder_builder : String
  builder_bucket : String
  status : String
  failure_type : Option (Option String) := none
  steps : List Step := []
deriving DecidableEq

/-- The resolver's output map, `BuildStatuses` in the source: a Python
dict from `Build` to `TryJobStatus`, embedded as an association list
with dict update semantics (`dictInsert`/`dictUpdate` below). -/
abbrev BuildStatuses := List (Build × TryJobStatus)

/-- The external world the resolver talks to, as pure response
functions: the current CL's issue number, `GitCL.latest_try_jobs`,
Buildbucket's get-build and search-builds responses, the log-content
fetch, and the `can_trigger_jobs` flag.  `fetch`'s `.error` models a
`RequestException`-class failure (a transport error or a body that
fails to decode as JSON) and `.ok` a well-shaped summary; content that
decodes but is ill-shaped is outside this type, and its raise paths
are embedded separately by the untyped `JVal` pipeline
(`_status_if_interrupted_raw` below). -/
structure Env where
  issueNumber : String
  latestTryJobs : List String → Option Nat → List (Build × TryJobStatus)
  getBuildResp : Build → RawBuild
  searchResp : String → String → List RawBuild
  fetch : String → Except Unit Summary
  canTrigger : Bool

/-- A queued Buildbucket batch request: `add_get_build_req` or
`add_search_builds_req` (with its `count` limit). -/
inductive Req where
  | getB (b : Build)
  | search (bucket builder : String) (count : Nat)
deriving DecidableEq

/-- The three `UnresolvedBuildException` raises of the resolver,
distinguished by their message. -/
inductive Exn where
  | noIssueNumber
  | noTryJobs
  | pending
deriving DecidableEq

/-- User-visible events of one `resolve_builds` run, in program order:
the `trigger_try_jobs` call, the tabular summary log (`log_builds`),
and the final raise for pending triggered builds. -/
inductive Event where
  | triggeredJobs (builders : List String)
  | loggedSummary
  | raisedPending
deriving DecidableEq

instance {ε α : Type} [DecidableEq ε] [DecidableEq α] : DecidableEq (Except ε α) := fun x y =>
  match x, y with
  | .error e1, .error e2 =>
    if h : e1 = e2 then .isTrue (by rw [h]) else
      .isFalse (by intro hc; injection hc; contradiction)
  | .error _, .ok _ => .isFalse (by intro hc; exact Except.noConfusion hc)
  | .ok _, .error _ => .isFalse (by intro hc; exact Except.noConfusion hc)
  | .ok a1, .ok a2 =>
    if h : a1 = a2 then .isTrue (by rw [h]) else
      .isFalse (by intro hc; injection hc; contradiction)

/-- Modelled from the spec: `TryJobStatus.from_bb_status` lives in
`blinkpy/common/net/git_cl.py`, which is not among the sources.  Per
the spec's data model, terminal test results `SUCCESS`/`FAILURE`
become `(COMPLETED, result)` and every other Buildbucket status (for
example `SCHEDULED`, `STARTED`, `INFRA_FAILURE`) is carried through as
a status code with no result. -/
def fromBBStatus (s : String) : TryJobStatus :=
  if s = "SUCCESS" ∨ s = "FAILURE" then ("COMPLETED", some s) else (s, none)

/-- `BuildResolver.TRIGGERED`, the pseudo-status for builds triggered
by this run. -/
def triggeredStatus : TryJobStatus := ("TRIGGERED", none)

/-- `BuildResolver.MISSING`, the pseudo-status for try builders with no
build and no possibility of triggering one. -/
def missingStatus : TryJobStatus := ("MISSING", none)

/-- Modelled from the spec: `blinkpy/common/exit_codes.py` is not among
the sources; the spec calls this "the fixed set of 'infrastructure
error' exit codes".  These are `run_web_tests.py`'s conventional
infra-error exit codes: interrupted (130) and the reserved block
251-255 (early exit, missing system dependencies, no tests run, no
devices, unexpected error).  The success code 0 is not in the set. -/
def ERROR_CODES : List Int := [130, 251, 252, 253, 254, 255]

/-- `_shard_interrupted`: `int(shard.get('exit_code', 0)) in
exit_codes.ERROR_CODES` — a shard with no exit code defaults to 0. -/
def _shard_interrupted (s : Shard) : Bool :=
  ERROR_CODES.contains (s.exit_code.getD 0)

/-! ## The test-step name pattern

`re.fullmatch` of `[\w_-]*(webdriver|blink_(web|wpt))_tests.*\(with
patch\)[^|]*`, embedded as an executable backtracking matcher over the
character list.  `\w` is letter/digit/underscore (the input domain is
ASCII step names), `.` excludes a newline, and the final negated class
excludes only `|`. -/

/-- A character of the leading `[\w_-]*` class. -/
def isWordChar (c : Char) : Bool := c.isAlphanum || c == '_' || c == '-'

/-- If `p` is a prefix of `l`, return the remainder of `l`. -/
def stripLeading : List Char → List Char → Option (List Char)
  | [], l => some l
  | _ :: _, [] => none
  | p :: ps, c :: cs => if p = c then stripLeading ps cs else none

/-- The literal `(with patch)` fragment of the pattern. -/
def withPatchChars : List Char := ("(with patch)").toList

/-- Matches `.*\(with patch\)[^|]*` against the whole list. -/
def matchAfterTests : List Char → Bool
  | [] => false
  | c :: rest =>
    (match stripLeading withPatchChars (c :: rest) with
     | some left => left.all (fun d => d != '|')
     | none => false)
    || ((c != '\n') && matchAfterTests rest)

/-- The three alternatives `(webdriver|blink_(web|wpt))_tests`. -/
def testVariants : List (List Char) :=
  [("webdriver_tests").toList, ("blink_web_tests").toList,
   ("blink_wpt_tests").toList]

/-- Matches `(webdriver|blink_(web|wpt))_tests.*\(with patch\)[^|]*`
anchored at the start of the list. -/
def matchCoreHere (l : List Char) : Bool :=
  testVariants.any fun v =>
    match stripLeading v l with
    | some rest => matchAfterTests rest
    | none => false

/-- Tries the core pattern at every position reachable by consuming
`[\w_-]*` characters. -/
def matchesFrom : List Char → Bool
  | [] => matchCoreHere []
  | c :: rest => matchCoreHere (c :: rest) || (isWordChar c && matchesFrom rest)

/-- `run_web_tests_pattern.fullmatch(step['name'])` as a Boolean. -/
def matchesRunWebTests (s : String) : Bool := matchesFrom s.toList

/-! ## Python dict semantics over association lists -/

/-- `d[k] = v` on a Python dict: an existing key keeps its position and
gets the new value; a new key is appended. -/
def dictInsert (m : BuildStatuses) (k : Build) (v : TryJobStatus) : BuildStatuses :=
  if m.any (fun p => decide (p.1 = k)) then
    m.map fun p => if p.1 = k then (k, v) else p
  else m ++ [(k, v)]

/-- `d.update(adds)` on a Python dict. -/
def dictUpdate (m adds : BuildStatuses) : BuildStatuses :=
  adds.foldl (fun acc p => dictInsert acc p.1 p.2) m

/-! ## The Interruption Classifier (`_status_if_interrupted`) -/

/-- The log name the classifier looks for. -/
def swarmingSummaryLogName : String := "chromium_swarming.summary"

/-- The loop body of `_fetch_swarming_summary` over `step['logs']`: on
the matching log name it fetches the view URL; a `RequestException`
(transport failure or malformed JSON body) is suppressed, so the loop
continues; if no log produces a summary the result is `None`. -/
def fetchSummaryFromLogs (env : Env) : List LogEntry → Option Summary
  | [] => none
  | log :: rest =>
    if log.name = swarmingSummaryLogName then
      match env.fetch log.viewUrl with
      | .ok s => some s
      | .error _ => fetchSummaryFromLogs env rest
    else fetchSummaryFromLogs env rest

/-- `_fetch_swarming_summary(step)`. -/
def _fetch_swarming_summary (env : Env) (step : Step) : Option Summary :=
  fetchSummaryFromLogs env step.logs

/-- `(summary or {}).get('shards', [])` for the well-shaped summaries
`Env.fetch` can deliver.  The source raises `AttributeError` here for a
truthy non-dict summary; that path cannot arise at this type and is
embedded by `jGetShards` in the untyped pipeline below. -/
def stepShards (env : Env) (step : Step) : List Shard :=
  match _fetch_swarming_summary env step with
  | some s => s.shards
  | none => []

/-- One iteration of the classifier's step loop: the step name matches
the test pattern and some shard of its summary is interrupted. -/
def stepTriggersInfra (env : Env) (step : Step) : Bool :=
  matchesRunWebTests step.name && (stepShards env step).any _shard_interrupted

/-- `raw_build.get('output', {}).get('properties', {}).get('failure_type')`:
an absent key and a JSON `null` both collapse to `none`. -/
def failure_type_value (raw : RawBuild) : Option String :=
  raw.failure_type.getD none

/-- `output_props.get('failure_type') not in {None, 'TEST_FAILURE'}`. -/
def disqualifyingFailureType (raw : RawBuild) : Bool :=
  match failure_type_value raw with
  | none => false
  | some v => v != "TEST_FAILURE"

/-- `_status_if_interrupted(raw_build)`: coerce opaque infrastructure
failures to `INFRA_FAILURE`, otherwise return the Buildbucket status
converted by `TryJobStatus.from_bb_status`. -/
def _status_if_interrupted (env : Env) (raw : RawBuild) : TryJobStatus :=
  if disqualifyingFailureType raw then fromBBStatus ("INFRA_FAILURE")
  else if raw.steps.any (stepTriggersInfra env) then fromBBStatus ("INFRA_FAILURE")
  else fromBBStatus raw.status

/-- The dict key built by `_build_statuses_from_responses` from a raw
record: `Build(builder, number, id, bucket)`. -/
def keyOfRaw (r : RawBuild) : Build :=
  ⟨r.builder_builder, some r.number, some r.id, r.builder_bucket⟩

/-- The dict comprehension of `_build_statuses_from_responses` over
`zip(raw_builds, statuses)`. -/
def buildStatusesFromList (raws : List RawBuild) (sts : List TryJobStatus) :
    BuildStatuses :=
  dictUpdate [] ((raws.zip sts).map fun p => (keyOfRaw p.1, p.2))

/-- `_build_statuses_from_responses` with no injected pool: the
statuses come from the plain sequential `map`. -/
def _build_statuses_from_responses (env : Env) (raws : List RawBuild) :
    BuildStatuses :=
  buildStatusesFromList raws (raws.map (_status_if_interrupted env))

/-! ## The injected worker pool (`io_pool.map`)

`Executor.map` runs the pure classification tasks in some scheduler
order but yields results in input order.  The schedule is a list of
task indices in execution order; `runPool` executes tasks in that
order, tagging each result with its index, and `gatherAux` reassembles
the results in input order. -/

/-- Execute tasks in schedule order, producing index-tagged results. -/
def runPool {α β : Type} (sched : List Nat) (f : α → β) (xs : List α) :
    List (Nat × β) :=
  sched.filterMap fun i => (xs[i]?).map fun x => (i, f x)

/-- First value stored under a numeric key. -/
def natLookup {β : Type} (k : Nat) : List (Nat × β) → Option β
  | [] => none
  | p :: rest => if p.1 = k then some p.2 else natLookup k rest

/-- Reassemble index-tagged results in input order; `none` when some
task was never executed. -/
def gatherAux {α β : Type} (res : List (Nat × β)) : Nat → List α → Option (List β)
  | _, [] => some []
  | i, _ :: rest =>
    match natLookup i res with
    | none => none
    | some v => (gatherAux res (i + 1) rest).map fun tl => v :: tl

/-- `io_pool.map f xs` under schedule `sched`. -/
def poolMapList {α β : Type} (sched : List Nat) (f : α → β) (xs : List α) :
    Option (List β) :=
  gatherAux (runPool sched f xs) 0 xs

/-- `_build_statuses_from_responses` with an injected pool running the
classification tasks under schedule `sched`. -/
def _build_statuses_from_responses_pool (sched : List Nat) (env : Env)
    (raws : List RawBuild) : Option BuildStatuses :=
  (poolMapList sched (_status_if_interrupted env) raws).map
    (buildStatusesFromList raws)

/-! ## Try-job inference (`fetch_or_trigger_try_jobs`) -/

/-- Python `str.isdigit` restricted to ASCII: nonempty and all digits. -/
def pyIsDigit (s : String) : Bool := (!s.isEmpty) && s.toList.all Char.isDigit

/-- `Build(builder)` — a placeholder key with only the builder name
set; number and id default to `None` and the bucket to try. -/
def mkTryBuild (nm : String) : Build := ⟨nm, none, none, "try"⟩

/-- The dict returned by `GitCL.latest_try_jobs`, normalized to dict
semantics. -/
def latest_statuses (env : Env) (builders : List String) (ps : Option Nat) :
    BuildStatuses :=
  dictUpdate [] (env.latestTryJobs builders ps)

/-- `set(builders) - {build.builder_name for build in build_statuses}`. -/
def builders_without_results (env : Env) (builders : List String)
    (ps : Option Nat) : List String :=
  builders.filter fun nm =>
    !(latest_statuses env builders ps).any fun p => decide (p.1.builder_name = nm)

/-- `fetch_or_trigger_try_jobs(builders, patchset)`.  The second
component of the result records the builders passed to
`GitCL.trigger_try_jobs` (empty iff no trigger call was made). -/
def fetch_or_trigger_try_jobs (env : Env) (builders : List String)
    (ps : Option Nat) : Except Exn (BuildStatuses × List String) :=
  if !pyIsDigit env.issueNumber then .error Exn.noIssueNumber
  else if (latest_statuses env builders ps).isEmpty && !env.canTrigger then
    .error Exn.noTryJobs
  else if env.canTrigger && !(builders_without_results env builders ps).isEmpty then
    .ok ((builders_without_results env builders ps).foldl
           (fun acc nm => dictInsert acc (mkTryBuild nm) triggeredStatus)
           (latest_statuses env builders ps),
         builders_without_results env builders ps)
  else
    .ok ((builders_without_results env builders ps).foldl
           (fun acc nm => dictInsert acc (mkTryBuild nm) missingStatus)
           (latest_statuses env builders ps),
         [])

/-! ## The orchestrator (`resolve_builds`) -/

/-- Truthiness of `build.build_number` in Python: `None` and `0` are
both falsy. -/
def truthyNum : Option Nat → Bool
  | none => false
  | some n => n != 0

/-- The `try_builders_to_infer` set collected by the partition loop:
builder names of try builds with no (truthy) build number, deduplicated
because the source collects them into a `set`. -/
def tryBuildersToInfer (builds : List Build) : List String :=
  (builds.filterMap fun b =>
    if !truthyNum b.build_number && (b.bucket == "try") then some b.builder_name
    else none).dedup

/-- The batch requests queued by the partition loop, in loop order:
get-by-id for builds with a number, nothing for try builds without one,
and a count-1 failure search for CI builds without one. -/
def buildReqs (builds : List Build) : List Req :=
  builds.filterMap fun b =>
    if truthyNum b.build_number then some (Req.getB b)
    else if b.bucket == "try" then none
    else some (Req.search b.bucket b.builder_name 1)

/-- The get-by-id requests re-queued for completed try builds with a
build number (`status == 'COMPLETED'` on the status component). -/
def reRequestReqs (m : BuildStatuses) : List Req :=
  m.filterMap fun p =>
    if truthyNum p.1.build_number && (p.2.1 == "COMPLETED") then
      some (Req.getB p.1)
    else none

/-- `execute_batch()`: answer the queued requests in order; a search
contributes up to its `count` results. -/
def executeBatch (env : Env) (reqs : List Req) : List RawBuild :=
  reqs.flatMap fun r =>
    match r with
    | Req.getB b => [env.getBuildResp b]
    | Req.search bk nm c => (env.searchResp bk nm).take c

/-- The merged `build_statuses` dict after the batch responses are
classified and folded in. -/
def finalStatuses (env : Env) (statuses0 : BuildStatuses) (reqs : List Req) :
    BuildStatuses :=
  dictUpdate statuses0 (_build_statuses_from_responses env (executeBatch env reqs))

/-- `self.TRIGGERED in build_statuses.values()`. -/
def hasTriggeredIn (m : BuildStatuses) : Bool :=
  m.any fun p => decide (p.2 = triggeredStatus)

/-- The tail of `resolve_builds` after try-job inference: execute the
batch, classify, merge, log the summary for a nonempty map, and raise
when any status is `TRIGGERED`.  Returns the event trace in program
order together with the outcome. -/
def finishResolve (env : Env) (trace0 : List Event) (statuses0 : BuildStatuses)
    (reqs : List Req) : List Event × Except Exn BuildStatuses :=
  ((trace0 ++
      (if (finalStatuses env statuses0 reqs).isEmpty then []
       else [Event.loggedSummary]))
     ++ (if hasTriggeredIn (finalStatuses env statuses0 reqs) then
           [Event.raisedPending]
         else []),
   if hasTriggeredIn (finalStatuses env statuses0 reqs) then .error Exn.pending
   else .ok (finalStatuses env statuses0 reqs))

/-- `resolve_builds(builds, patchset)`. -/
def resolve_builds (env : Env) (builds : List Build) (ps : Option Nat) :
    List Event × Except Exn BuildStatuses :=
  if (tryBuildersToInfer builds).isEmpty then
    finishResolve env [] [] (buildReqs builds)
  else
    match fetch_or_trigger_try_jobs env (tryBuildersToInfer builds) ps with
    | .error e => ([], .error e)
    | .ok (tryStatuses, triggered) =>
      finishResolve env
        (if triggered.isEmpty then [] else [Event.triggeredJobs triggered])
        tryStatuses
        (buildReqs builds ++ reRequestReqs tryStatuses)

/-! ## The tabular summary's sort order (`_build_sort_key`) -/

/-- `_build_sort_key(build) = (build.builder_name, build.build_number or 0)`. -/
def _build_sort_key (b : Build) : String × Nat :=
  (b.builder_name, b.build_number.getD 0)

/-- Python's string comparison: lexicographic on code points. -/
def strLtChars : List Char → List Char → Bool
  | [], [] => false
  | [], _ :: _ => true
  | _ :: _, [] => false
  | a :: as, b :: bs => if a < b then true else if a = b then strLtChars as bs else false

/-- Python's `<` on strings. -/
def strLt (a b : String) : Bool := strLtChars a.toList b.toList

lemma strLtChars_total :
    ∀ l1 l2 : List Char,
      strLtChars l1 l2 = true ∨ l1 = l2 ∨ strLtChars l2 l1 = true := by
  intro l1
  induction l1 with
  | nil => intro l2; cases l2 <;> simp [strLtChars]
  | cons a as ih =>
    intro l2
    cases l2 with
    | nil => simp [strLtChars]
    | cons b bs =>
      rcases lt_trichotomy a b with h | h | h
      · exact Or.inl (by simp [strLtChars, h])
      · subst h
        rcases ih bs with h2 | h2 | h2
        · exact Or.inl (by simp [strLtChars, h2])
        · exact Or.inr (Or.inl (by rw [h2]))
        · exact Or.inr (Or.inr (by simp [strLtChars, h2]))
      · exact Or.inr (Or.inr (by simp [strLtChars, h]))

lemma strLtChars_trans :
    ∀ l1 l2 l3 : List Char,
      strLtChars l1 l2 = true → strLtChars l2 l3 = true →
        strLtChars l1 l3 = true := by
  intro l1
  induction l1 with
  | nil =>
    intro l2 l3 h12 h23
    cases l2 with
    | nil => exact h23
    | cons b bs => cases l3 with
      | nil => simp [strLtChars] at h23
      | cons c cs => simp [strLtChars]
  | cons a as ih =>
    intro l2 l3 h12 h23
    cases l2 with
    | nil => simp [strLtChars] at h12
    | cons b bs =>
      cases l3 with
      | nil => simp [strLtChars] at h23
      | cons c cs =>
        simp only [strLtChars] at h12 h23 ⊢
        rcases lt_trichotomy a b with hab | hab | hab
        · rcases lt_trichotomy b c with hbc | hbc | hbc
          · simp [lt_trans hab hbc]
          · subst hbc; simp [hab]
          · rw [if_neg (lt_asymm hbc), if_neg (ne_of_gt hbc)] at h23
            exact absurd h23 (by simp)
        · subst hab
          rcases lt_trichotomy a c with hac | hac | hac
          · simp [hac]
          · subst hac
            rw [if_neg (lt_irrefl a), if_pos rfl] at h12 h23 ⊢
            exact ih bs cs h12 h23
          · rw [if_neg (lt_asymm hac), if_neg (ne_of_gt hac)] at h23
            exact absurd h23 (by simp)
        · rw [if_neg (lt_asymm hab), if_neg (ne_of_gt hab)] at h12
          exact absurd h12 (by simp)

lemma strLt_eq_of_not (a b : String) (h1 : strLt a b = false)
    (h2 : strLt b a = false) : a = b := by
  rcases strLtChars_total a.toList b.toList with h | h | h
  · rw [strLt] at h1; rw [h1] at h; exact absurd h (by simp)
  · have hd : a.data = b.data := h
    cases a; cases b
    exact congrArg String.mk hd
  · rw [strLt] at h2; rw [h2] at h; exact absurd h (by simp)

/-- The comparison `sorted` uses: lexicographic on the sort key. -/
def buildLE (a b : Build) : Prop :=
  strLt (_build_sort_key a).1 (_build_sort_key b).1 = true ∨
    ((_build_sort_key a).1 = (_build_sort_key b).1 ∧
      (_build_sort_key a).2 ≤ (_build_sort_key b).2)

instance : DecidableRel buildLE := fun a b => by
  unfold buildLE; infer_instance

instance : IsTotal Build buildLE :=
  ⟨by
    intro a b
    unfold buildLE
    by_cases h1 : strLt (_build_sort_key a).1 (_build_sort_key b).1 = true
    · exact Or.inl (Or.inl h1)
    · by_cases h2 : strLt (_build_sort_key b).1 (_build_sort_key a).1 = true
      · exact Or.inr (Or.inl h2)
      · have heq := strLt_eq_of_not _ _ (by simpa using h1) (by simpa using h2)
        rcases Nat.le_total (_build_sort_key a).2 (_build_sort_key b).2 with h3 | h3
        · exact Or.inl (Or.inr ⟨heq, h3⟩)
        · exact Or.inr (Or.inr ⟨heq.symm, h3⟩)⟩

instance : IsTrans Build buildLE :=
  ⟨by
    intro a b c hab hbc
    unfold buildLE at *
    rcases hab with h1 | ⟨h1, h1'⟩ <;> rcases hbc with h2 | ⟨h2, h2'⟩
    · exact Or.inl (strLtChars_trans _ _ _ h1 h2)
    · exact Or.inl (h2 ▸ h1)
    · exact Or.inl (h1 ▸ h2)
    · exact Or.inr ⟨h1.trans h2, h1'.trans h2'⟩⟩

/-- `sorted(build_statuses, key=_build_sort_key)`: Python's `sorted` is
a stable sort by the key, and a stable sort by a total preorder is
unique, so insertion sort is an exact model. -/
def sortBuilds (l : List Build) : List Build := List.insertionSort buildLE l

/-- `d[k]` on a Python dict embedded as an association list: the value
of the first (and, by construction, only) entry with key `k`. -/
def dictGet (k : Build) : BuildStatuses → Option TryJobStatus
  | [] => none
  | p :: rest => if p.1 = k then some p.2 else dictGet k rest

/-! ## Specimen inputs used by concrete instantiations -/

/-- A summary whose shards all succeeded. -/
def summaryAllOk : Summary := ⟨[⟨some 0⟩, ⟨some 1⟩]⟩

/-- A summary with one shard interrupted by a timeout (exit code 130). -/
def summaryInterrupted : Summary := ⟨[⟨some 0⟩, ⟨some 130⟩]⟩

/-- A summary whose shards report no exit code at all. -/
def summaryNoExitCodes : Summary := ⟨[⟨none⟩, ⟨none⟩]⟩

/-- A web-test step carrying a swarming-summary log. -/
def specimenStep : Step :=
  ⟨"blink_web_tests (with patch)",
   [⟨"chromium_swarming.summary", "https://logs.example.test/summary"⟩]⟩

/-- A failed raw build with a compile-type failure reason and a web-test
step (whose contents must not matter). -/
def rawCompileFailure : RawBuild :=
  ⟨"8001", 42, "linux-rel", "try", "FAILURE", some (some ("COMPILE_FAILURE")),
   [specimenStep]⟩

/-- A failed raw build with a test-type failure reason and a web-test
step. -/
def rawTestFailure : RawBuild :=
  ⟨"8002", 43, "linux-rel", "try", "FAILURE", some (some ("TEST_FAILURE")),
   [specimenStep]⟩

/-- An environment whose every summary fetch fails. -/
def envFetchFails : Env :=
  ⟨"123456", fun _ _ => [], fun _ => rawTestFailure, fun _ _ => [],
   fun _ => .error (), false⟩

/-- An environment whose every summary fetch yields an interrupted
shard. -/
def envFetchInterrupted : Env :=
  ⟨"123456", fun _ _ => [], fun _ => rawTestFailure, fun _ _ => [],
   fun _ => .ok summaryInterrupted, false⟩

/-- An environment whose every summary fetch yields shards without exit
codes. -/
def envFetchNoExitCodes : Env :=
  ⟨"123456", fun _ _ => [], fun _ => rawTestFailure, fun _ _ => [],
   fun _ => .ok summaryNoExitCodes, false⟩

/-- An environment for try-job inference: triggering allowed and one
existing try build, for builder `bld-a` (a `STARTED` build 7). -/
def envOneTryBuild : Env :=
  ⟨"123456",
   fun _ _ => [(⟨"bld-a", some 7, some ("700"), "try"⟩, ("STARTED", none))],
   fun _ => rawTestFailure, fun _ _ => [], fun _ => .error (), true⟩

/-- An environment with no try builds and triggering disallowed. -/
def envNoBuildsNoTrigger : Env :=
  ⟨"123456", fun _ _ => [], fun _ => rawTestFailure, fun _ _ => [],
   fun _ => .error (), false⟩

/-- An environment whose get-build responses echo the requested
builder, number and bucket back, as Buildbucket does. -/
def envEcho : Env :=
  ⟨"123456", fun _ _ => [],
   fun b => ⟨"id", b.build_number.getD 0, b.builder_name, b.bucket,
             "FAILURE", none, []⟩,
   fun _ _ => [], fun _ => .error (), false⟩

/-! ## The raw content of a shard-summary fetch

The typed `Summary`/`Env.fetch` model above covers transport failures,
bodies that fail to decode as JSON (both raise `RequestException` and
are suppressed at the fetch site) and well-shaped summaries, which is
all the approved classification claims need.  The error-handling
behaviour on content that *decodes* as JSON but is ill-shaped is not
expressible there, so the pipeline from `_fetch_swarming_summary`'s
return value through `_shard_interrupted` is re-embedded here over an
untyped JSON value with Python's exception semantics made explicit:
`.get` on a non-dict raises `AttributeError`, `map()` over a
non-iterable raises `TypeError`, and `int()` of a non-numeric string
raises `ValueError` — none of which the source recovers. -/

/-- A JSON value as returned by `response.json()`. -/
inductive JVal where
  | jnull
  | jbool (b : Bool)
  | jint (n : Int)
  | jstr (s : String)
  | jarr (elems : List JVal)
  | jobj (fields : List (String × JVal))

/-- The Python exceptions the raw pipeline can raise; the source
suppresses none of them. -/
inductive PyErr where
  | attributeError
  | typeError
  | valueError
deriving DecidableEq

/-- Python truthiness of a JSON-decoded value. -/
def jTruthy : JVal → Bool
  | JVal.jnull => false
  | JVal.jbool b => b
  | JVal.jint n => n != 0
  | JVal.jstr s => !s.isEmpty
  | JVal.jarr xs => !xs.isEmpty
  | JVal.jobj fs => !fs.isEmpty

/-- First value stored under a string key of a JSON object. -/
def jLookup (key : String) : List (String × JVal) → Option JVal
  | [] => none
  | p :: rest => if p.1 = key then some p.2 else jLookup key rest

/-- `summary or {}`: a falsy summary is replaced by the empty dict. -/
def pyOrEmptyObj (v : JVal) : JVal :=
  if jTruthy v then v else JVal.jobj []

/-- `(summary or {}).get('shards', [])`: on a dict, the stored value or
the empty-list default; `.get` on any truthy non-dict raises
`AttributeError`. -/
def jGetShards (summary : JVal) : Except PyErr JVal :=
  match pyOrEmptyObj summary with
  | JVal.jobj fields => .ok ((jLookup ("shards") fields).getD (JVal.jarr []))
  | _ => .error PyErr.attributeError

/-- Leading and trailing whitespace removal, as `int()` performs on a
string argument. -/
def trimChars (l : List Char) : List Char :=
  ((l.dropWhile Char.isWhitespace).reverse.dropWhile Char.isWhitespace).reverse

/-- Decimal digits to a number. -/
def digitsVal (l : List Char) : Nat :=
  l.foldl (fun acc c => acc * 10 + (c.toNat - ('0').toNat)) 0

/-- CPython `int(s)` for a string: optional sign and a nonempty digit
run after whitespace stripping (digit-group underscores are omitted;
the inputs of interest are swarming's plain decimal exit codes);
anything else raises `ValueError`. -/
def pyIntOfStr (s : String) : Except PyErr Int :=
  match trimChars s.toList with
  | [] => .error PyErr.valueError
  | c :: rest =>
    if c = '-' then
      if !rest.isEmpty && rest.all Char.isDigit then .ok (-(digitsVal rest : Int))
      else .error PyErr.valueError
    else if c = '+' then
      if !rest.isEmpty && rest.all Char.isDigit then .ok ((digitsVal rest : Int))
      else .error PyErr.valueError
    else if (c :: rest).all Char.isDigit then .ok ((digitsVal (c :: rest) : Int))
    else .error PyErr.valueError

/-- Python `int()` on a JSON value: numbers pass through, booleans
coerce, strings parse, and `None`, lists and dicts raise
`TypeError`. -/
def pyInt : JVal → Except PyErr Int
  | JVal.jint n => .ok n
  | JVal.jbool b => .ok (if b then 1 else 0)
  | JVal.jstr s => pyIntOfStr s
  | JVal.jnull => .error PyErr.typeError
  | JVal.jarr _ => .error PyErr.typeError
  | JVal.jobj _ => .error PyErr.typeError

/-- `_shard_interrupted` over raw content:
`int(shard.get('exit_code', 0)) in exit_codes.ERROR_CODES`; `.get` on a
non-dict shard raises `AttributeError`. -/
def shardInterruptedRaw (shard : JVal) : Except PyErr Bool :=
  match shard with
  | JVal.jobj fields =>
    match pyInt ((jLookup ("exit_code") fields).getD (JVal.jint 0)) with
    | .error e => .error e
    | .ok n => .ok (ERROR_CODES.contains n)
  | _ => .error PyErr.attributeError

/-- `any(map(_shard_interrupted, shards))` over a list: lazy, so it
stops at the first interrupted shard and otherwise propagates the first
exception. -/
def anyShardListRaw : List JVal → Except PyErr Bool
  | [] => .ok false
  | shard :: rest =>
    match shardInterruptedRaw shard with
    | .error e => .error e
    | .ok true => .ok true
    | .ok false => anyShardListRaw rest

/-- `any(map(_shard_interrupted, shards))` for an arbitrary `shards`
value: iterating a string or a dict yields strings (characters or
keys), whose `.get` raises `AttributeError` unless the iterable is
empty; `map()` over a non-iterable raises `TypeError`. -/
def anyInterruptedRaw : JVal → Except PyErr Bool
  | JVal.jarr xs => anyShardListRaw xs
  | JVal.jstr s => if s.isEmpty then .ok false else .error PyErr.attributeError
  | JVal.jobj fs => if fs.isEmpty then .ok false else .error PyErr.attributeError
  | JVal.jnull => .error PyErr.typeError
  | JVal.jbool _ => .error PyErr.typeError
  | JVal.jint _ => .error PyErr.typeError

/-- `_fetch_swarming_summary` over raw content: the fetch oracle `fr`
returns the decoded JSON body or a `RequestException`-class failure
(transport error or undecodable body), which is suppressed so the log
loop continues; `none` is Python's `None` fall-through. -/
def fetchRawSummaryFromLogs (fr : String → Except Unit JVal) :
    List LogEntry → Option JVal
  | [] => none
  | log :: rest =>
    if log.name = swarmingSummaryLogName then
      match fr log.viewUrl with
      | .ok v => some v
      | .error _ => fetchRawSummaryFromLogs fr rest
    else fetchRawSummaryFromLogs fr rest

/-- One iteration of the classifier's step loop over raw content. -/
def stepTriggersInfraRaw (fr : String → Except Unit JVal) (step : Step) :
    Except PyErr Bool :=
  if matchesRunWebTests step.name then
    match jGetShards ((fetchRawSummaryFromLogs fr step.logs).getD JVal.jnull) with
    | .error e => .error e
    | .ok shards => anyInterruptedRaw shards
  else .ok false

/-- The classifier's step loop over raw content: exceptions propagate
out of the loop. -/
def stepsAnyRaw (fr : String → Except Unit JVal) : List Step → Except PyErr Bool
  | [] => .ok false
  | st :: rest =>
    match stepTriggersInfraRaw fr st with
    | .error e => .error e
    | .ok true => .ok true
    | .ok false => stepsAnyRaw fr rest

/-- `_status_if_interrupted` with the summary-content pipeline left
untyped: the result is the returned `TryJobStatus` or the first Python
exception escaping the classifier. -/
def _status_if_interrupted_raw (fr : String → Except Unit JVal)
    (raw : RawBuild) : Except PyErr TryJobStatus :=
  if disqualifyingFailureType raw then .ok (fromBBStatus ("INFRA_FAILURE"))
  else
    match stepsAnyRaw fr raw.steps with
    | .error e => .error e
    | .ok true => .ok (fromBBStatus ("INFRA_FAILURE"))
    | .ok false => .ok (fromBBStatus raw.status)

/-- A fetch whose body decodes as the JSON string `"garbled"`: valid
JSON, but a truthy non-dict. -/
def badSummaryFetch : String → Except Unit JVal :=
  fun _ => .ok (JVal.jstr ("garbled"))

/-- A fetch whose body decodes as a summary whose shard reports the
non-numeric exit code `"x"`. -/
def badExitCodeFetch : String → Except Unit JVal :=
  fun _ => .ok (JVal.jobj
    [("shards", JVal.jarr [JVal.jobj [("exit_code", JVal.jstr ("x"))]])])

/-! ## Lemmas about the dict embedding -/

lemma dictGet_map_replace_self (m : BuildStatuses) (k : Build) (v : TryJobStatus)
    (hany : (m.any fun p => decide (p.1 = k)) = true) :
    dictGet k (m.map fun p => if p.1 = k then (k, v) else p) = some v := by
  induction m with
  | nil => simp at hany
  | cons p rest ih =>
    by_cases hp : p.1 = k
    · simp [dictGet, hp]
    · simp only [List.map_cons, if_neg hp, dictGet, if_neg hp]
      refine ih ?_
      simp only [List.any_cons, Bool.or_eq_true, decide_eq_true_eq] at hany
      rcases hany with h | h
      · exact absurd h hp
      · exact h

lemma dictGet_append_single_self (m : BuildStatuses) (k : Build) (v : TryJobStatus)
    (h : ∀ p ∈ m, p.1 ≠ k) :
    dictGet k (m ++ [(k, v)]) = some v := by
  induction m with
  | nil => simp [dictGet]
  | cons p rest ih =>
    simp only [List.cons_append, dictGet, if_neg (h p (by simp))]
    exact ih fun q hq => h q (by simp [hq])

lemma dictGet_dictInsert_self (m : BuildStatuses) (k : Build) (v : TryJobStatus) :
    dictGet k (dictInsert m k v) = some v := by
  unfold dictInsert
  split
  · rename_i hany
    exact dictGet_map_replace_self m k v hany
  · rename_i hany
    refine dictGet_append_single_self m k v ?_
    intro p hp hc
    exact hany (by simp only [List.any_eq_true]; exact ⟨p, hp, by simp [hc]⟩)

lemma dictGet_map_replace_ne (m : BuildStatuses) (k k' : Build) (v : TryJobStatus)
    (h : k' ≠ k) :
    dictGet k (m.map fun p => if p.1 = k' then (k', v) else p) = dictGet k m := by
  induction m with
  | nil => simp [dictGet]
  | cons p rest ih =>
    by_cases hp : p.1 = k'
    · simp only [List.map_cons, if_pos hp, dictGet]
      rw [if_neg h, if_neg (show ¬ p.1 = k by rw [hp]; exact h)]
      exact ih
    · simp only [List.map_cons, if_neg hp, dictGet]
      by_cases hpk : p.1 = k
      · rw [if_pos hpk, if_pos hpk]
      · rw [if_neg hpk, if_neg hpk]
        exact ih

lemma dictGet_append_single_ne (m : BuildStatuses) (k k' : Build) (v : TryJobStatus)
    (h : k' ≠ k) :
    dictGet k (m ++ [(k', v)]) = dictGet k m := by
  induction m with
  | nil => simp [dictGet, h]
  | cons p rest ih =>
    simp only [List.cons_append, dictGet]
    by_cases hpk : p.1 = k
    · rw [if_pos hpk, if_pos hpk]
    · rw [if_neg hpk, if_neg hpk]
      exact ih

lemma dictGet_dictInsert_ne (m : BuildStatuses) (k k' : Build) (v : TryJobStatus)
    (h : k' ≠ k) : dictGet k (dictInsert m k' v) = dictGet k m := by
  unfold dictInsert
  split
  · exact dictGet_map_replace_ne m k k' v h
  · exact dictGet_append_single_ne m k k' v h

lemma dictInsert_ne_nil (m : BuildStatuses) (k : Build) (v : TryJobStatus) :
    dictInsert m k v ≠ [] := by
  unfold dictInsert
  split
  · rename_i hany
    intro hc
    rw [List.map_eq_nil_iff] at hc
    subst hc
    simp at hany
  · intro hc
    cases m <;> simp at hc

lemma dictUpdate_ne_nil_of_ne_nil (m adds : BuildStatuses) (h : m ≠ []) :
    dictUpdate m adds ≠ [] := by
  induction adds generalizing m with
  | nil => simpa [dictUpdate]
  | cons p rest ih =>
    simp only [dictUpdate, List.foldl_cons]
    exact ih _ (dictInsert_ne_nil _ _ _)

lemma dictUpdate_nil_eq_nil_iff (adds : BuildStatuses) :
    dictUpdate [] adds = [] ↔ adds = [] := by
  constructor
  · intro h
    cases adds with
    | nil => rfl
    | cons p rest =>
      exfalso
      refine dictUpdate_ne_nil_of_ne_nil (dictInsert [] p.1 p.2) rest
        (dictInsert_ne_nil _ _ _) ?_
      simpa [dictUpdate] using h
  · intro h
    subst h
    rfl

lemma dictGet_dictUpdate_not_mem (m adds : BuildStatuses) (k : Build)
    (h : ∀ p ∈ adds, p.1 ≠ k) :
    dictGet k (dictUpdate m adds) = dictGet k m := by
  induction adds generalizing m with
  | nil => rfl
  | cons p rest ih =>
    simp only [dictUpdate, List.foldl_cons]
    have step : dictGet k (dictInsert m p.1 p.2) = dictGet k m :=
      dictGet_dictInsert_ne m k p.1 p.2 (h p (by simp))
    have hrest := ih (dictInsert m p.1 p.2) (fun q hq => h q (by simp [hq]))
    calc dictGet k (List.foldl (fun acc p => dictInsert acc p.1 p.2)
            (dictInsert m p.1 p.2) rest)
        = dictGet k (dictInsert m p.1 p.2) := hrest
      _ = dictGet k m := step

lemma mem_dictInsert (m : BuildStatuses) (k : Build) (v : TryJobStatus)
    (p : Build × TryJobStatus) (h : p ∈ dictInsert m k v) : p ∈ m ∨ p.1 = k := by
  unfold dictInsert at h
  split at h
  · rw [List.mem_map] at h
    obtain ⟨q, hq, hqe⟩ := h
    by_cases hqk : q.1 = k
    · rw [if_pos hqk] at hqe
      exact Or.inr (by rw [← hqe])
    · rw [if_neg hqk] at hqe
      exact Or.inl (hqe ▸ hq)
  · rw [List.mem_append] at h
    rcases h with h | h
    · exact Or.inl h
    · simp only [List.mem_singleton] at h
      exact Or.inr (by rw [h])

lemma mem_dictUpdate (m adds : BuildStatuses) (p : Build × TryJobStatus)
    (h : p ∈ dictUpdate m adds) : p ∈ m ∨ p.1 ∈ adds.map Prod.fst := by
  induction adds generalizing m with
  | nil => exact Or.inl h
  | cons q rest ih =>
    simp only [dictUpdate, List.foldl_cons] at h
    rcases ih (dictInsert m q.1 q.2) (by simpa [dictUpdate] using h) with h2 | h2
    · rcases mem_dictInsert m q.1 q.2 p h2 with h3 | h3
      · exact Or.inl h3
      · exact Or.inr (by simp [h3])
    · exact Or.inr (by simp [h2])

lemma dictGet_mem (m : BuildStatuses) (k : Build) (v : TryJobStatus)
    (h : dictGet k m = some v) : (k, v) ∈ m := by
  induction m with
  | nil => simp [dictGet] at h
  | cons p rest ih =>
    obtain ⟨p1, p2⟩ := p
    unfold dictGet at h
    by_cases hp : p1 = k
    · rw [if_pos (show (p1, p2).1 = k from hp)] at h
      injection h with h2
      have h2' : p2 = v := h2
      have hpv : (p1, p2) = (k, v) := by rw [hp, h2']
      rw [← hpv]
      exact List.mem_cons_self _ _
    · rw [if_neg (show ¬ (p1, p2).1 = k from hp)] at h
      exact List.mem_cons_of_mem _ (ih h)

/-! ## Lemmas about the Interruption Classifier -/

lemma fetchSummaryFromLogs_ok (env : Env) (logs : List LogEntry) (sum : Summary)
    (h : fetchSummaryFromLogs env logs = some sum) :
    ∃ url, env.fetch url = Except.ok sum := by
  induction logs with
  | nil => simp [fetchSummaryFromLogs] at h
  | cons log rest ih =>
    unfold fetchSummaryFromLogs at h
    by_cases hn : log.name = swarmingSummaryLogName
    · rw [if_pos hn] at h
      cases hf : env.fetch log.viewUrl with
      | ok s =>
        rw [hf] at h
        injection h with h2
        exact ⟨log.viewUrl, by rw [hf, h2]⟩
      | error e =>
        rw [hf] at h
        exact ih h
    · rw [if_neg hn] at h
      exact ih h

lemma shard_interrupted_of_no_exit_code (sh : Shard) (h : sh.exit_code = none) :
    _shard_interrupted sh = false := by
  unfold _shard_interrupted
  rw [h]
  decide

lemma fromBBStatus_ne_triggered (s : String) (h : s ≠ "TRIGGERED") :
    fromBBStatus s ≠ triggeredStatus := by
  unfold fromBBStatus triggeredStatus
  split
  · intro hc
    injection hc with h1 h2
    exact absurd h1 (by decide)
  · intro hc
    injection hc with h1 h2
    exact h h1

lemma status_if_interrupted_ne_triggered (env : Env) (raw : RawBuild)
    (h : raw.status ≠ "TRIGGERED") :
    _status_if_interrupted env raw ≠ triggeredStatus := by
  unfold _status_if_interrupted
  split
  · exact fromBBStatus_ne_triggered _ (by decide)
  · split
    · exact fromBBStatus_ne_triggered _ (by decide)
    · exact fromBBStatus_ne_triggered _ h

/-! ## Claims about the Interruption Classifier -/

/-- C1: for every raw build record whose `output.properties.failure_type`
is present and is neither null nor `"TEST_FAILURE"`, the Interruption
Classifier (`_status_if_interrupted`) returns INFRA_FAILURE, regardless
of the record's step contents. -/
theorem c1_failure_type_forces_infra (env : Env) (raw : RawBuild) (v : String)
    (hpresent : raw.failure_type = some (some v))
    (hne : v ≠ "TEST_FAILURE") :
    _status_if_interrupted env raw =
      (("INFRA_FAILURE" : String), (none : Option String)) := by
  have hdq : disqualifyingFailureType raw = true := by
    unfold disqualifyingFailureType failure_type_value
    rw [hpresent]
    simpa using hne
  unfold _status_if_interrupted
  rw [if_pos hdq]
  decide

theorem c1_witness :
    rawCompileFailure.failure_type = some (some ("COMPILE_FAILURE")) ∧
    ("COMPILE_FAILURE" : String) ≠ "TEST_FAILURE" ∧
    _status_if_interrupted envFetchInterrupted rawCompileFailure =
      (("INFRA_FAILURE" : String), (none : Option String)) :=
  ⟨rfl, by decide,
   c1_failure_type_forces_infra envFetchInterrupted rawCompileFailure
     ("COMPILE_FAILURE") rfl (by decide)⟩

/-- C2: for every raw build record without a disqualifying
`failure_type`: if some step whose name matches the test-execution
pattern has a shard summary containing a shard exit code in the fixed
infrastructure-error set, classification returns INFRA_FAILURE;
otherwise classification returns exactly the status reported by the
remote service (converted to a `TryJobStatus` by
`TryJobStatus.from_bb_status`), unchanged. -/
theorem c2_shard_exit_classification (env : Env) (raw : RawBuild)
    (h0 : disqualifyingFailureType raw = false) :
    ((∃ step ∈ raw.steps, matchesRunWebTests step.name = true ∧
        ∃ sum : Summary, _fetch_swarming_summary env step = some sum ∧
          ∃ sh ∈ sum.shards, _shard_interrupted sh = true) →
      _status_if_interrupted env raw =
        (("INFRA_FAILURE" : String), (none : Option String))) ∧
    ((∀ step ∈ raw.steps, matchesRunWebTests step.name = true →
        ∀ sum : Summary, _fetch_swarming_summary env step = some sum →
          ∀ sh ∈ sum.shards, _shard_interrupted sh = false) →
      _status_if_interrupted env raw = fromBBStatus raw.status) := by
  constructor
  · rintro ⟨step, hstep, hmatch, sum, hsum, sh, hsh, hint⟩
    have htrig : stepTriggersInfra env step = true := by
      unfold stepTriggersInfra stepShards
      rw [hmatch, hsum]
      simp only [Bool.true_and]
      exact List.any_eq_true.2 ⟨sh, hsh, hint⟩
    have hany : raw.steps.any (stepTriggersInfra env) = true :=
      List.any_eq_true.2 ⟨step, hstep, htrig⟩
    unfold _status_if_interrupted
    rw [if_neg (by rw [h0]; exact Bool.false_ne_true), if_pos hany]
    decide
  · intro hall
    have hany : raw.steps.any (stepTriggersInfra env) = false := by
      rw [Bool.eq_false_iff]
      intro hc
      obtain ⟨step, hstep, htrig⟩ := List.any_eq_true.1 hc
      unfold stepTriggersInfra at htrig
      rw [Bool.and_eq_true] at htrig
      obtain ⟨hm, hshards⟩ := htrig
      unfold stepShards at hshards
      cases hfs : _fetch_swarming_summary env step with
      | none => rw [hfs] at hshards; simp at hshards
      | some sum =>
        rw [hfs] at hshards
        obtain ⟨sh, hsh, hint⟩ := List.any_eq_true.1 hshards
        have := hall step hstep hm sum hfs sh hsh
        rw [this] at hint
        exact Bool.false_ne_true hint
    unfold _status_if_interrupted
    rw [if_neg (by rw [h0]; exact Bool.false_ne_true),
        if_neg (by rw [hany]; exact Bool.false_ne_true)]

theorem c2_witness :
    disqualifyingFailureType rawTestFailure = false ∧
    (((∃ step ∈ rawTestFailure.steps, matchesRunWebTests step.name = true ∧
        ∃ sum : Summary,
          _fetch_swarming_summary envFetchInterrupted step = some sum ∧
            ∃ sh ∈ sum.shards, _shard_interrupted sh = true) →
      _status_if_interrupted envFetchInterrupted rawTestFailure =
        (("INFRA_FAILURE" : String), (none : Option String))) ∧
     ((∀ step ∈ rawTestFailure.steps, matchesRunWebTests step.name = true →
        ∀ sum : Summary,
          _fetch_swarming_summary envFetchInterrupted step = some sum →
            ∀ sh ∈ sum.shards, _shard_interrupted sh = false) →
      _status_if_interrupted envFetchInterrupted rawTestFailure =
        fromBBStatus rawTestFailure.status)) :=
  ⟨by decide, c2_shard_exit_classification envFetchInterrupted rawTestFailure
    (by decide)⟩

lemma fetchRawSummaryFromLogs_error (fr : String → Except Unit JVal)
    (hfail : ∀ url, fr url = Except.error ()) :
    ∀ logs : List LogEntry, fetchRawSummaryFromLogs fr logs = none := by
  intro logs
  induction logs with
  | nil => rfl
  | cons log rest ih =>
    unfold fetchRawSummaryFromLogs
    by_cases hn : log.name = swarmingSummaryLogName
    · rw [if_pos hn, hfail log.viewUrl]
      exact ih
    · rw [if_neg hn]
      exact ih

/-- C6 counterexample: the claim asserts that malformed structured
content is recovered locally and never raises out of classification.
The source suppresses only `RequestException`: a fetch body that
decodes as the JSON string `"garbled"` (truthy, not a dict) raises
`AttributeError` at `(summary or {}).get('shards', [])`, and a shard
whose exit code is the non-numeric string `"x"` raises `ValueError`
inside `int()`; in both cases classification raises instead of
returning the status of the record as if no extra information
existed. -/
theorem c6_counterexample :
    _status_if_interrupted_raw badSummaryFetch rawTestFailure =
      .error PyErr.attributeError ∧
    _status_if_interrupted_raw badExitCodeFetch rawTestFailure =
      .error PyErr.valueError ∧
    _status_if_interrupted_raw badSummaryFetch rawTestFailure ≠
      .ok (fromBBStatus rawTestFailure.status) := by
  refine ⟨by decide, by decide, by decide⟩

/-- C6 (amended): a shard-summary fetch that fails with a
`RequestException` — a transport failure or a body that fails to decode
as JSON — never raises out of classification: the failure is recovered
inside `_fetch_swarming_summary`, the summary is treated as absent, and
the record is classified as if it carried no step data at all (the
counterexample shows that content which decodes but is ill-shaped is
not recovered). -/
theorem c6_amended_request_failure_recovered (fr : String → Except Unit JVal)
    (hfail : ∀ url, fr url = Except.error ())
    (step : Step) (raw : RawBuild) :
    fetchRawSummaryFromLogs fr step.logs = none ∧
    _status_if_interrupted_raw fr raw =
      _status_if_interrupted_raw fr { raw with steps := [] } ∧
    _status_if_interrupted_raw fr { raw with steps := [] } =
      .ok (if disqualifyingFailureType raw then fromBBStatus ("INFRA_FAILURE")
           else fromBBStatus raw.status) := by
  have hstep : ∀ st : Step, stepTriggersInfraRaw fr st = .ok false := by
    intro st
    unfold stepTriggersInfraRaw
    rw [fetchRawSummaryFromLogs_error fr hfail st.logs]
    by_cases hm : matchesRunWebTests st.name = true
    · rw [if_pos hm]
      rfl
    · rw [if_neg hm]
  have hall : ∀ l : List Step, stepsAnyRaw fr l = .ok false := by
    intro l
    induction l with
    | nil => rfl
    | cons st rest ih =>
      unfold stepsAnyRaw
      rw [hstep st]
      exact ih
  refine ⟨fetchRawSummaryFromLogs_error fr hfail step.logs, ?_, ?_⟩
  · unfold _status_if_interrupted_raw
    rw [hall raw.steps, hall ({ raw with steps := [] } : RawBuild).steps]
    rfl
  · unfold _status_if_interrupted_raw
    by_cases hdq : disqualifyingFailureType raw = true
    · rw [if_pos (show disqualifyingFailureType { raw with steps := [] } = true
          from hdq), if_pos hdq]
    · rw [if_neg (show ¬ disqualifyingFailureType { raw with steps := [] } = true
          from hdq), if_neg hdq]
      rfl

theorem c6_witness :
    (∀ url, badSummaryFetch url = Except.error () → False) ∧
    (∀ url, (fun _ : String => (Except.error () : Except Unit JVal)) url =
      Except.error ()) ∧
    (fetchRawSummaryFromLogs (fun _ => Except.error ()) specimenStep.logs = none ∧
     _status_if_interrupted_raw (fun _ => Except.error ()) rawTestFailure =
       _status_if_interrupted_raw (fun _ => Except.error ())
         { rawTestFailure with steps := [] } ∧
     _status_if_interrupted_raw (fun _ => Except.error ())
         { rawTestFailure with steps := [] } =
       .ok (if disqualifyingFailureType rawTestFailure then
              fromBBStatus ("INFRA_FAILURE")
            else fromBBStatus rawTestFailure.status)) :=
  ⟨fun _ h => by exact Except.noConfusion h, fun _ => rfl,
   c6_amended_request_failure_recovered (fun _ => Except.error ())
     (fun _ => rfl) specimenStep rawTestFailure⟩

/-- C10: a shard record lacking an `exit_code` field is treated as exit
code 0 by `_shard_interrupted`, so it is never counted as interrupted;
consequently, when every shard the environment can deliver lacks an
exit code (and no disqualifying `failure_type` is set), the record is
never reclassified as INFRA_FAILURE. -/
theorem c10_no_exit_code_not_interrupted (env : Env) (raw : RawBuild) (s : Shard)
    (hs : s.exit_code = none)
    (hsum : ∀ url sum, env.fetch url = Except.ok sum →
      ∀ sh ∈ sum.shards, sh.exit_code = none)
    (hdq : disqualifyingFailureType raw = false) :
    _shard_interrupted s = false ∧
    _status_if_interrupted env raw = fromBBStatus raw.status := by
  refine ⟨shard_interrupted_of_no_exit_code s hs, ?_⟩
  have hany : raw.steps.any (stepTriggersInfra env) = false := by
    rw [Bool.eq_false_iff]
    intro hc
    obtain ⟨st, hst, htrig⟩ := List.any_eq_true.1 hc
    unfold stepTriggersInfra stepShards at htrig
    rw [Bool.and_eq_true] at htrig
    obtain ⟨hm, hshards⟩ := htrig
    cases hfs : _fetch_swarming_summary env st with
    | none => rw [hfs] at hshards; simp at hshards
    | some sum =>
      rw [hfs] at hshards
      obtain ⟨sh, hsh, hint⟩ := List.any_eq_true.1 hshards
      obtain ⟨url, hurl⟩ := fetchSummaryFromLogs_ok env st.logs sum hfs
      rw [shard_interrupted_of_no_exit_code sh (hsum url sum hurl sh hsh)] at hint
      exact Bool.false_ne_true hint
  unfold _status_if_interrupted
  rw [if_neg (by rw [hdq]; exact Bool.false_ne_true),
      if_neg (by rw [hany]; exact Bool.false_ne_true)]

theorem c10_witness :
    ((⟨none⟩ : Shard).exit_code = none) ∧
    (_shard_interrupted ⟨none⟩ = false ∧
     _status_if_interrupted envFetchNoExitCodes rawTestFailure =
       fromBBStatus rawTestFailure.status) :=
  ⟨rfl,
   c10_no_exit_code_not_interrupted envFetchNoExitCodes rawTestFailure ⟨none⟩ rfl
     (by
       intro url sum h sh hsh
       injection h with h2
       rw [← h2] at hsh
       have hv : sh = (⟨none⟩ : Shard) := by
         rcases List.mem_cons.1 hsh with h3 | h4
         · exact h3
         · rcases List.mem_cons.1 h4 with h5 | h6
           · exact h5
           · exact absurd h6 (List.not_mem_nil sh)
       rw [hv])
     (by decide)⟩

/-! ## Claims about the tabular summary's sort order -/

/-- C3 counterexample: the claim predicts that a build with no number
sorts last among builds of the same builder name, i.e. sorting
`[build 5, unnumbered]` would leave build 5 first.  The code keys a
missing number as 0 (`build.build_number or 0`), so the unnumbered
build sorts first instead. -/
theorem c3_counterexample :
    _build_sort_key ⟨"builder-a", none, none, "try"⟩ =
      (("builder-a" : String), 0) ∧
    sortBuilds [⟨"builder-a", some 5, none, "try"⟩,
                ⟨"builder-a", none, none, "try"⟩] =
      [⟨"builder-a", none, none, "try"⟩,
       ⟨"builder-a", some 5, none, "try"⟩] ∧
    sortBuilds [⟨"builder-a", some 5, none, "try"⟩,
                ⟨"builder-a", none, none, "try"⟩] ≠
      [⟨"builder-a", some 5, none, "try"⟩,
       ⟨"builder-a", none, none, "try"⟩] := by
  refine ⟨rfl, by decide, by decide⟩

/-- C3 (amended): the tabular summary is sorted ascending by the sort
key (builder name, then build number, where a missing number is keyed
as 0); consequently builds with no number sort first, not last, among
builds of the same builder name. -/
theorem c3_amended_sort_order (l : List Build) (a b : Build)
    (hname : a.builder_name = b.builder_name)
    (hnone : a.build_number = none) :
    (sortBuilds l).Sorted buildLE ∧ List.Perm (sortBuilds l) l ∧ buildLE a b := by
  refine ⟨List.sorted_insertionSort buildLE l, List.perm_insertionSort buildLE l,
    Or.inr ⟨hname, ?_⟩⟩
  simp [_build_sort_key, hnone]

theorem c3_amended_witness :
    (⟨"builder-a", none, none, "try"⟩ : Build).builder_name =
      (⟨"builder-a", some 5, none, "try"⟩ : Build).builder_name ∧
    (⟨"builder-a", none, none, "try"⟩ : Build).build_number = none ∧
    ((sortBuilds [⟨"builder-a", some 5, none, "try"⟩,
                  ⟨"builder-a", none, none, "try"⟩]).Sorted buildLE ∧
     List.Perm (sortBuilds [⟨"builder-a", some 5, none, "try"⟩,
                            ⟨"builder-a", none, none, "try"⟩])
       [⟨"builder-a", some 5, none, "try"⟩, ⟨"builder-a", none, none, "try"⟩] ∧
     buildLE ⟨"builder-a", none, none, "try"⟩ ⟨"builder-a", some 5, none, "try"⟩) :=
  ⟨rfl, rfl,
   c3_amended_sort_order
     [⟨"builder-a", some 5, none, "try"⟩, ⟨"builder-a", none, none, "try"⟩]
     ⟨"builder-a", none, none, "try"⟩ ⟨"builder-a", some 5, none, "try"⟩
     rfl rfl⟩

/-! ## Claims about the worker pool -/

lemma lookup_runPool {α β : Type} (f : α → β) (xs : List α) (k : Nat)
    (hk : k < xs.length) :
    ∀ sched : List Nat, k ∈ sched →
      natLookup k (runPool sched f xs) = some (f (xs.get ⟨k, hk⟩)) := by
  intro sched
  induction sched with
  | nil => intro h; simp at h
  | cons j rest ih =>
    intro hmem
    by_cases hkj : k = j
    · subst hkj
      have hsome : xs[k]? = some (xs.get ⟨k, hk⟩) := by
        rw [List.getElem?_eq_getElem hk]
        rfl
      have hstep : runPool (k :: rest) f xs =
          (k, f (xs.get ⟨k, hk⟩)) :: runPool rest f xs := by
        simp [runPool, List.filterMap_cons, hsome]
      rw [hstep]
      simp [natLookup]
    · have hrest : k ∈ rest := by
        rcases List.mem_cons.1 hmem with h | h
        · exact absurd h hkj
        · exact h
      cases hj : xs[j]? with
      | none =>
        have hstep : runPool (j :: rest) f xs = runPool rest f xs := by
          simp [runPool, List.filterMap_cons, hj]
        rw [hstep]
        exact ih hrest
      | some y =>
        have hstep : runPool (j :: rest) f xs = (j, f y) :: runPool rest f xs := by
          simp [runPool, List.filterMap_cons, hj]
        rw [hstep]
        unfold natLookup
        rw [if_neg (show ¬ ((j, f y) : Nat × β).1 = k from fun hc => hkj hc.symm)]
        exact ih hrest

lemma gatherAux_go {α β : Type} (f : α → β) (res : List (Nat × β)) :
    ∀ (l : List α) (i : Nat),
      (∀ k (hk : k < l.length), natLookup (i + k) res = some (f (l.get ⟨k, hk⟩))) →
      gatherAux res i l = some (l.map f) := by
  intro l
  induction l with
  | nil => intro i _; rfl
  | cons x rest ih =>
    intro i H
    have h0 : natLookup i res = some (f x) := by
      have := H 0 (by simp)
      simpa using this
    have hrest : gatherAux res (i + 1) rest = some (rest.map f) := by
      refine ih (i + 1) ?_
      intro k hk
      have := H (k + 1) (by simpa using Nat.succ_lt_succ hk)
      rw [show i + (k + 1) = i + 1 + k by omega] at this
      simpa using this
    unfold gatherAux
    rw [h0, hrest]
    rfl

lemma poolMapList_eq_map {α β : Type} (sched : List Nat) (f : α → β)
    (xs : List α) (h : ∀ k, k < xs.length → k ∈ sched) :
    poolMapList sched f xs = some (xs.map f) := by
  unfold poolMapList
  refine gatherAux_go f _ xs 0 ?_
  intro k hk
  rw [Nat.zero_add]
  exact lookup_runPool f xs k hk sched (h k hk)

/-- C9: for every list of raw build records, classifying them through
an injected worker pool (any schedule that executes every task)
produces exactly the same `BuildStatuses` map as classifying them
sequentially with no pool — the pool never changes the result or the
mapping of record to status. -/
theorem c9_pool_equals_sequential (sched : List Nat) (env : Env)
    (raws : List RawBuild) (h : ∀ k, k < raws.length → k ∈ sched) :
    _build_statuses_from_responses_pool sched env raws =
      some (_build_statuses_from_responses env raws) := by
  unfold _build_statuses_from_responses_pool _build_statuses_from_responses
  rw [poolMapList_eq_map sched _ raws h]
  rfl

theorem c9_witness :
    (∀ k, k < ([rawTestFailure, rawCompileFailure] : List RawBuild).length →
      k ∈ [1, 0]) ∧
    _build_statuses_from_responses_pool [1, 0] envEcho
        [rawTestFailure, rawCompileFailure] =
      some (_build_statuses_from_responses envEcho
        [rawTestFailure, rawCompileFailure]) :=
  ⟨by
     intro k hk
     simp only [List.length_cons, List.length_nil] at hk
     simp only [List.mem_cons, List.mem_singleton]
     omega,
   c9_pool_equals_sequential [1, 0] envEcho [rawTestFailure, rawCompileFailure]
     (by
       intro k hk
       simp only [List.length_cons, List.length_nil] at hk
       simp only [List.mem_cons, List.mem_singleton]
       omega)⟩

/-! ## Lemmas about try-job inference and the orchestrator -/

lemma builders_without_results_not_found (env : Env) (builders : List String)
    (ps : Option Nat) (nm : String)
    (hnm : nm ∈ builders_without_results env builders ps) :
    ∀ p ∈ latest_statuses env builders ps, p.1.builder_name ≠ nm := by
  intro p hp hc
  unfold builders_without_results at hnm
  rw [List.mem_filter] at hnm
  have hany := hnm.2
  rw [Bool.not_eq_true'] at hany
  have htrue : (latest_statuses env builders ps).any
      (fun p => decide (p.1.builder_name = nm)) = true :=
    List.any_eq_true.2 ⟨p, hp, by simp [hc]⟩
  rw [htrue] at hany
  exact absurd hany (by simp)

lemma foldl_insert_get_preserved (l : List String) (ph : TryJobStatus) (k : Build)
    (v : TryJobStatus) :
    ∀ acc : BuildStatuses, dictGet k acc = some v →
      (∀ nm ∈ l, mkTryBuild nm ≠ k) →
      dictGet k (l.foldl (fun acc nm => dictInsert acc (mkTryBuild nm) ph) acc) =
        some v := by
  induction l with
  | nil => intro acc hacc _; exact hacc
  | cons nm rest ih =>
    intro acc hacc hne
    simp only [List.foldl_cons]
    refine ih _ ?_ (fun x hx => hne x (by simp [hx]))
    rw [dictGet_dictInsert_ne _ _ _ _ (hne nm (by simp))]
    exact hacc

lemma foldl_insert_get_self (l : List String) (ph : TryJobStatus) (b0 : String)
    (hb : b0 ∈ l) :
    ∀ acc : BuildStatuses,
      dictGet (mkTryBuild b0)
        (l.foldl (fun acc nm => dictInsert acc (mkTryBuild nm) ph) acc) = some ph := by
  induction l with
  | nil => simp at hb
  | cons nm rest ih =>
    intro acc
    simp only [List.foldl_cons]
    by_cases hbr : b0 ∈ rest
    · exact ih hbr _
    · have hbn : b0 = nm := by
        rcases List.mem_cons.1 hb with h | h
        · exact h
        · exact absurd h hbr
      subst hbn
      refine foldl_insert_get_preserved rest ph (mkTryBuild b0) ph _
        (dictGet_dictInsert_self _ _ _) ?_
      intro nm' hnm' hc
      have hname : nm' = b0 := congrArg Build.builder_name hc
      exact hbr (hname ▸ hnm')

lemma build_number_isSome_of_mem_responses (env : Env) (raws : List RawBuild)
    (p : Build × TryJobStatus) (h : p ∈ _build_statuses_from_responses env raws) :
    p.1.build_number ≠ none := by
  unfold _build_statuses_from_responses buildStatusesFromList at h
  rcases mem_dictUpdate _ _ _ h with h2 | h2
  · simp at h2
  · rw [List.map_map, List.mem_map] at h2
    obtain ⟨q, _, hq⟩ := h2
    rw [← hq]
    simp [keyOfRaw]

lemma triggered_survives_update (env : Env) (raws : List RawBuild)
    (m : BuildStatuses) (k : Build) (hk : k.build_number = none)
    (h : dictGet k m = some triggeredStatus) :
    dictGet k (dictUpdate m (_build_statuses_from_responses env raws)) =
      some triggeredStatus := by
  rw [dictGet_dictUpdate_not_mem]
  · exact h
  · intro p hp hc
    have hnum := build_number_isSome_of_mem_responses env raws p hp
    rw [hc, hk] at hnum
    exact hnum rfl

lemma any_triggered_of_dictGet (m : BuildStatuses) (k : Build)
    (h : dictGet k m = some triggeredStatus) :
    (m.any fun p => decide (p.2 = triggeredStatus)) = true :=
  List.any_eq_true.2 ⟨(k, triggeredStatus), dictGet_mem _ _ _ h, by simp⟩

lemma fetch_or_trigger_ne_pending (env : Env) (builders : List String)
    (ps : Option Nat) :
    fetch_or_trigger_try_jobs env builders ps ≠ .error Exn.pending := by
  unfold fetch_or_trigger_try_jobs
  split
  · intro hc
    injection hc with h
    exact Exn.noConfusion h
  · split
    · intro hc
      injection hc with h
      exact Exn.noConfusion h
    · split
      · intro hc
        exact Except.noConfusion hc
      · intro hc
        exact Except.noConfusion hc

lemma isEmpty_false_of_ne_nil {α : Type} (l : List α) (h : l ≠ []) :
    l.isEmpty = false := by
  cases hl : l with
  | nil => exact absurd hl h
  | cons a t => rfl

lemma fetch_or_trigger_trigger_case (env : Env) (builders : List String)
    (ps : Option Nat)
    (hdig : pyIsDigit env.issueNumber = true)
    (htr : env.canTrigger = true)
    (hmiss : builders_without_results env builders ps ≠ []) :
    fetch_or_trigger_try_jobs env builders ps =
      .ok ((builders_without_results env builders ps).foldl
             (fun acc nm => dictInsert acc (mkTryBuild nm) triggeredStatus)
             (latest_statuses env builders ps),
           builders_without_results env builders ps) := by
  unfold fetch_or_trigger_try_jobs
  rw [if_neg (by rw [hdig]; simp)]
  rw [if_neg (by rw [htr]; simp)]
  rw [if_pos (by
    rw [htr, isEmpty_false_of_ne_nil _ hmiss]
    rfl)]

lemma fetch_or_trigger_aborts_iff (env : Env) (builders : List String)
    (ps : Option Nat)
    (hdig : pyIsDigit env.issueNumber = true)
    (htr : env.canTrigger = false) :
    (fetch_or_trigger_try_jobs env builders ps = .error Exn.noTryJobs ↔
      env.latestTryJobs builders ps = []) := by
  unfold fetch_or_trigger_try_jobs
  rw [if_neg (by rw [hdig]; simp)]
  constructor
  · intro h
    by_cases hemp : (latest_statuses env builders ps).isEmpty = true
    · rw [List.isEmpty_iff] at hemp
      exact (dictUpdate_nil_eq_nil_iff _).1 hemp
    · rw [if_neg (by rw [htr] at *; simpa using hemp)] at h
      split at h
      · exact absurd h (by intro hc; exact Except.noConfusion hc)
      · exact absurd h (by intro hc; exact Except.noConfusion hc)
  · intro h
    rw [if_pos (by
      have : latest_statuses env builders ps = [] :=
        (dictUpdate_nil_eq_nil_iff _).2 h
      rw [this, htr]
      rfl)]

lemma finishResolve_pending_iff (env : Env) (t0 : List Event)
    (s0 : BuildStatuses) (reqs : List Req) :
    (finishResolve env t0 s0 reqs).2 = .error Exn.pending ↔
      hasTriggeredIn (finalStatuses env s0 reqs) = true := by
  unfold finishResolve
  dsimp only
  by_cases hb : hasTriggeredIn (finalStatuses env s0 reqs) = true
  · rw [if_pos hb]
    exact iff_of_true rfl hb
  · rw [if_neg hb]
    constructor
    · intro hc
      exact Except.noConfusion hc
    · intro hc
      exact absurd hc hb

lemma finishResolve_pending_trace (env : Env) (t0 : List Event)
    (s0 : BuildStatuses) (reqs : List Req)
    (h : (finishResolve env t0 s0 reqs).2 = .error Exn.pending) :
    (finishResolve env t0 s0 reqs).1 =
      t0 ++ [Event.loggedSummary, Event.raisedPending] := by
  have hb : hasTriggeredIn (finalStatuses env s0 reqs) = true :=
    (finishResolve_pending_iff env t0 s0 reqs).1 h
  have hne : finalStatuses env s0 reqs ≠ [] := by
    intro hc
    unfold hasTriggeredIn at hb
    rw [hc] at hb
    simp at hb
  unfold finishResolve
  rw [hb, isEmpty_false_of_ne_nil _ hne]
  simp

/-! ## Claims about the orchestrator -/

/-- C7: whenever `resolve_builds` raises for pending (TRIGGERED) builds,
the tabular summary has already been logged: the event trace of the run
ends with the summary log immediately followed by the raise, so logging
precedes the raise on every such run. -/
theorem c7_summary_logged_before_pending_raise (env : Env) (builds : List Build)
    (ps : Option Nat)
    (h : (resolve_builds env builds ps).2 = .error Exn.pending) :
    ∃ pre, (resolve_builds env builds ps).1 =
      pre ++ [Event.loggedSummary, Event.raisedPending] := by
  unfold resolve_builds at h ⊢
  by_cases hinf : (tryBuildersToInfer builds).isEmpty = true
  · rw [if_pos hinf] at h ⊢
    exact ⟨[], finishResolve_pending_trace env [] [] (buildReqs builds) h⟩
  · rw [if_neg hinf] at h ⊢
    cases hf : fetch_or_trigger_try_jobs env (tryBuildersToInfer builds) ps with
    | error e =>
      exfalso
      rw [hf] at h
      have h2 : (Except.error e : Except Exn BuildStatuses) = .error Exn.pending := h
      injection h2 with h3
      exact fetch_or_trigger_ne_pending env (tryBuildersToInfer builds) ps
        (by rw [hf, h3])
    | ok pr =>
      obtain ⟨m, trig⟩ := pr
      rw [hf] at h
      have h2 : (finishResolve env
          (if trig.isEmpty = true then [] else [Event.triggeredJobs trig]) m
          (buildReqs builds ++ reRequestReqs m)).2 = .error Exn.pending := h
      exact ⟨_, finishResolve_pending_trace env _ m _ h2⟩

theorem c7_witness :
    (resolve_builds envOneTryBuild [⟨"bld-b", none, none, "try"⟩] (some 3)).2 =
      .error Exn.pending ∧
    ∃ pre, (resolve_builds envOneTryBuild [⟨"bld-b", none, none, "try"⟩]
        (some 3)).1 = pre ++ [Event.loggedSummary, Event.raisedPending] :=
  ⟨by decide,
   c7_summary_logged_before_pending_raise envOneTryBuild
     [⟨"bld-b", none, none, "try"⟩] (some 3) (by decide)⟩

lemma tryBuildersToInfer_map_mkTry (builders : List String)
    (h : builders.Nodup) :
    tryBuildersToInfer (builders.map mkTryBuild) = builders := by
  unfold tryBuildersToInfer
  rw [List.filterMap_map]
  have hid : List.filterMap
      ((fun b => if (!truthyNum b.build_number && b.bucket == "try") = true then
        some b.builder_name else none) ∘ mkTryBuild) builders = builders := by
    calc List.filterMap
          ((fun b => if (!truthyNum b.build_number && b.bucket == "try") = true
            then some b.builder_name else none) ∘ mkTryBuild) builders
        = List.filterMap some builders := by
          apply List.filterMap_congr
          intro nm _
          rfl
      _ = builders := List.filterMap_some builders
  rw [hid]
  exact List.dedup_eq_self.2 h

lemma buildReqs_map_mkTry (builders : List String) :
    buildReqs (builders.map mkTryBuild) = [] := by
  unfold buildReqs
  rw [List.filterMap_map]
  rw [List.filterMap_eq_nil_iff]
  intro nm _
  rfl

/-- C5: for every set of try builders requested with no build numbers
and triggering disabled, `fetch_or_trigger_try_jobs` raises
`UnresolvedBuildException` (the no-try-jobs abort) exactly when the
revision has zero existing builds, and `resolve_builds` on those
builders raises it in that case. -/
theorem c5_abort_when_no_builds_and_no_trigger (env : Env)
    (builders : List String) (ps : Option Nat)
    (hdig : pyIsDigit env.issueNumber = true)
    (htr : env.canTrigger = false)
    (hnodup : builders.Nodup)
    (hne : builders ≠ []) :
    (fetch_or_trigger_try_jobs env builders ps = .error Exn.noTryJobs ↔
      env.latestTryJobs builders ps = []) ∧
    (env.latestTryJobs builders ps = [] →
      (resolve_builds env (builders.map mkTryBuild) ps).2 =
        .error Exn.noTryJobs) := by
  refine ⟨fetch_or_trigger_aborts_iff env builders ps hdig htr, ?_⟩
  intro hraw
  unfold resolve_builds
  rw [tryBuildersToInfer_map_mkTry builders hnodup]
  rw [if_neg (by rw [isEmpty_false_of_ne_nil _ hne]; simp)]
  rw [(fetch_or_trigger_aborts_iff env builders ps hdig htr).2 hraw]

theorem c5_witness :
    (fetch_or_trigger_try_jobs envNoBuildsNoTrigger ["bld-a"] none =
        .error Exn.noTryJobs ↔
      envNoBuildsNoTrigger.latestTryJobs ["bld-a"] none = []) ∧
    (envNoBuildsNoTrigger.latestTryJobs ["bld-a"] none = [] →
      (resolve_builds envNoBuildsNoTrigger (["bld-a"].map mkTryBuild) none).2 =
        .error Exn.noTryJobs) :=
  c5_abort_when_no_builds_and_no_trigger envNoBuildsNoTrigger ["bld-a"] none
    rfl rfl (by decide) (by decide)

/-- C4: for a set of try builders requested with no build numbers, with
triggering enabled and at least one builder having no existing build:
the trigger call receives exactly the builders without builds, each of
them receives the TRIGGERED pseudo-status in the returned map, builders
with existing builds keep their real status, no triggered builder had
an existing build (so no trigger call covers them), and the
`resolve_builds` call raises `UnresolvedBuildException` for the pending
builds. -/
theorem c4_trigger_missing_builders (env : Env) (builders : List String)
    (ps : Option Nat)
    (hdig : pyIsDigit env.issueNumber = true)
    (htr : env.canTrigger = true)
    (hnodup : builders.Nodup)
    (hmiss : builders_without_results env builders ps ≠ []) :
    fetch_or_trigger_try_jobs env builders ps =
      .ok ((builders_without_results env builders ps).foldl
             (fun acc nm => dictInsert acc (mkTryBuild nm) triggeredStatus)
             (latest_statuses env builders ps),
           builders_without_results env builders ps) ∧
    (∀ nm ∈ builders_without_results env builders ps,
      dictGet (mkTryBuild nm)
        ((builders_without_results env builders ps).foldl
          (fun acc nm => dictInsert acc (mkTryBuild nm) triggeredStatus)
          (latest_statuses env builders ps)) = some triggeredStatus) ∧
    (∀ (k : Build) (v : TryJobStatus),
      dictGet k (latest_statuses env builders ps) = some v →
      dictGet k
        ((builders_without_results env builders ps).foldl
          (fun acc nm => dictInsert acc (mkTryBuild nm) triggeredStatus)
          (latest_statuses env builders ps)) = some v) ∧
    (∀ nm ∈ builders_without_results env builders ps,
      ∀ p ∈ latest_statuses env builders ps, p.1.builder_name ≠ nm) ∧
    (resolve_builds env (builders.map mkTryBuild) ps).2 = .error Exn.pending := by
  have hfot := fetch_or_trigger_trigger_case env builders ps hdig htr hmiss
  refine ⟨hfot, ?_, ?_, ?_, ?_⟩
  · intro nm hnm
    exact foldl_insert_get_self _ _ nm hnm _
  · intro k v hkv
    refine foldl_insert_get_preserved _ _ _ _ _ hkv ?_
    intro nm hnm hc
    have hnot := builders_without_results_not_found env builders ps nm hnm
    have hmem := dictGet_mem _ _ _ hkv
    refine hnot (k, v) hmem ?_
    rw [← hc]
    rfl
  · intro nm hnm p hp
    exact builders_without_results_not_found env builders ps nm hnm p hp
  · have hbne : builders ≠ [] := by
      intro hb
      apply hmiss
      unfold builders_without_results
      rw [hb]
      rfl
    unfold resolve_builds
    rw [tryBuildersToInfer_map_mkTry builders hnodup]
    rw [if_neg (by rw [isEmpty_false_of_ne_nil _ hbne]; simp)]
    rw [hfot]
    obtain ⟨nm0, hnm0⟩ : ∃ nm0, nm0 ∈ builders_without_results env builders ps := by
      cases hbw : builders_without_results env builders ps with
      | nil => exact absurd hbw hmiss
      | cons a t => exact ⟨a, List.mem_cons_self a t⟩
    have hget : dictGet (mkTryBuild nm0)
        ((builders_without_results env builders ps).foldl
          (fun acc nm => dictInsert acc (mkTryBuild nm) triggeredStatus)
          (latest_statuses env builders ps)) = some triggeredStatus :=
      foldl_insert_get_self _ _ nm0 hnm0 _
    refine (finishResolve_pending_iff env _ _ _).2 ?_
    unfold hasTriggeredIn finalStatuses
    exact any_triggered_of_dictGet _ (mkTryBuild nm0)
      (triggered_survives_update env _ _ _ rfl hget)

theorem c4_witness :
    builders_without_results envOneTryBuild ["bld-a", "bld-b"] (some 3) =
      ["bld-b"] ∧
    (resolve_builds envOneTryBuild (["bld-a", "bld-b"].map mkTryBuild)
        (some 3)).2 = .error Exn.pending :=
  ⟨by decide,
   (c4_trigger_missing_builders envOneTryBuild ["bld-a", "bld-b"] (some 3)
      rfl rfl (by decide) (by decide)).2.2.2.2⟩

lemma dictUpdate_nil_two (k1 k2 : Build) (v1 v2 : TryJobStatus) (h : k1 ≠ k2) :
    dictUpdate [] [(k1, v1), (k2, v2)] = [(k1, v1), (k2, v2)] := by
  unfold dictUpdate
  simp only [List.foldl_cons, List.foldl_nil]
  have h1 : dictInsert [] k1 v1 = [(k1, v1)] := by
    unfold dictInsert
    simp
  rw [h1]
  unfold dictInsert
  rw [if_neg (by simp [h])]
  rfl

/-- C8: requesting the same try builder twice with no build number in
one `resolve_builds` call collapses to a single inferred build (the two
runs are literally identical), while two requests for the same builder
with different explicit numbers yield two distinct entries keyed by the
concrete resolved identifier from the response records. -/
theorem c8_map_keyed_by_resolved_identifier (env : Env) (b : String)
    (n1 n2 : Nat) (ps : Option Nat)
    (h1 : n1 ≠ 0) (h2 : n2 ≠ 0) (hne : n1 ≠ n2)
    (hr1 : (env.getBuildResp ⟨b, some n1, none, "try"⟩).number = n1)
    (hr2 : (env.getBuildResp ⟨b, some n2, none, "try"⟩).number = n2)
    (hs1 : (env.getBuildResp ⟨b, some n1, none, "try"⟩).status ≠ "TRIGGERED")
    (hs2 : (env.getBuildResp ⟨b, some n2, none, "try"⟩).status ≠ "TRIGGERED") :
    resolve_builds env [⟨b, none, none, "try"⟩, ⟨b, none, none, "try"⟩] ps =
      resolve_builds env [⟨b, none, none, "try"⟩] ps ∧
    keyOfRaw (env.getBuildResp ⟨b, some n1, none, "try"⟩) ≠
      keyOfRaw (env.getBuildResp ⟨b, some n2, none, "try"⟩) ∧
    (resolve_builds env
        [⟨b, some n1, none, "try"⟩, ⟨b, some n2, none, "try"⟩] ps).2 =
      .ok [(keyOfRaw (env.getBuildResp ⟨b, some n1, none, "try"⟩),
            _status_if_interrupted env (env.getBuildResp ⟨b, some n1, none, "try"⟩)),
           (keyOfRaw (env.getBuildResp ⟨b, some n2, none, "try"⟩),
            _status_if_interrupted env
              (env.getBuildResp ⟨b, some n2, none, "try"⟩))] := by
  have hk : keyOfRaw (env.getBuildResp ⟨b, some n1, none, "try"⟩) ≠
      keyOfRaw (env.getBuildResp ⟨b, some n2, none, "try"⟩) := by
    intro hc
    have hnum := congrArg Build.build_number hc
    unfold keyOfRaw at hnum
    simp only at hnum
    rw [hr1, hr2] at hnum
    injection hnum with hnum2
    exact hne hnum2
  refine ⟨?_, hk, ?_⟩
  · unfold resolve_builds
    have ht : tryBuildersToInfer
        [⟨b, none, none, "try"⟩, ⟨b, none, none, "try"⟩] =
        tryBuildersToInfer [⟨b, none, none, "try"⟩] := by
      show ([b, b] : List String).dedup = ([b] : List String).dedup
      rw [List.dedup_cons_of_mem (List.mem_singleton.2 rfl)]
    have hr : buildReqs [⟨b, none, none, "try"⟩, ⟨b, none, none, "try"⟩] =
        buildReqs [⟨b, none, none, "try"⟩] := rfl
    rw [ht, hr]
  · have hb1 : (n1 != 0) = true := by simpa using h1
    have hb2 : (n2 != 0) = true := by simpa using h2
    have hti : tryBuildersToInfer
        [⟨b, some n1, none, "try"⟩, ⟨b, some n2, none, "try"⟩] = [] := by
      unfold tryBuildersToInfer
      simp [truthyNum, hb1, hb2]
    have hreqs : buildReqs
        [⟨b, some n1, none, "try"⟩, ⟨b, some n2, none, "try"⟩] =
        [Req.getB ⟨b, some n1, none, "try"⟩, Req.getB ⟨b, some n2, none, "try"⟩] := by
      unfold buildReqs
      simp [truthyNum, hb1, hb2]
    unfold resolve_builds
    rw [hti, if_pos (show ([] : List String).isEmpty = true from rfl), hreqs]
    unfold finishResolve
    dsimp only
    have hbatch : executeBatch env
        [Req.getB ⟨b, some n1, none, "try"⟩, Req.getB ⟨b, some n2, none, "try"⟩] =
        [env.getBuildResp ⟨b, some n1, none, "try"⟩,
         env.getBuildResp ⟨b, some n2, none, "try"⟩] := rfl
    have hfin : finalStatuses env []
        [Req.getB ⟨b, some n1, none, "try"⟩, Req.getB ⟨b, some n2, none, "try"⟩] =
        [(keyOfRaw (env.getBuildResp ⟨b, some n1, none, "try"⟩),
          _status_if_interrupted env (env.getBuildResp ⟨b, some n1, none, "try"⟩)),
         (keyOfRaw (env.getBuildResp ⟨b, some n2, none, "try"⟩),
          _status_if_interrupted env
            (env.getBuildResp ⟨b, some n2, none, "try"⟩))] := by
      unfold finalStatuses
      rw [hbatch]
      have hresp : _build_statuses_from_responses env
          [env.getBuildResp ⟨b, some n1, none, "try"⟩,
           env.getBuildResp ⟨b, some n2, none, "try"⟩] =
          dictUpdate []
            [(keyOfRaw (env.getBuildResp ⟨b, some n1, none, "try"⟩),
              _status_if_interrupted env
                (env.getBuildResp ⟨b, some n1, none, "try"⟩)),
             (keyOfRaw (env.getBuildResp ⟨b, some n2, none, "try"⟩),
              _status_if_interrupted env
                (env.getBuildResp ⟨b, some n2, none, "try"⟩))] := rfl
      rw [hresp, dictUpdate_nil_two _ _ _ _ hk]
      exact dictUpdate_nil_two _ _ _ _ hk
    rw [hfin]
    have hany : hasTriggeredIn
        [(keyOfRaw (env.getBuildResp ⟨b, some n1, none, "try"⟩),
          _status_if_interrupted env (env.getBuildResp ⟨b, some n1, none, "try"⟩)),
         (keyOfRaw (env.getBuildResp ⟨b, some n2, none, "try"⟩),
          _status_if_interrupted env
            (env.getBuildResp ⟨b, some n2, none, "try"⟩))] = false := by
      unfold hasTriggeredIn
      simp only [List.any_cons, List.any_nil, Bool.or_false]
      rw [decide_eq_false (status_if_interrupted_ne_triggered env _ hs1),
          decide_eq_false (status_if_interrupted_ne_triggered env _ hs2)]
      rfl
    rw [hany]
    simp

theorem c8_witness :
    resolve_builds envEcho
        [⟨"bld-a", none, none, "try"⟩, ⟨"bld-a", none, none, "try"⟩] none =
      resolve_builds envEcho [⟨"bld-a", none, none, "try"⟩] none ∧
    keyOfRaw (envEcho.getBuildResp ⟨"bld-a", some 11, none, "try"⟩) ≠
      keyOfRaw (envEcho.getBuildResp ⟨"bld-a", some 12, none, "try"⟩) ∧
    (resolve_builds envEcho
        [⟨"bld-a", some 11, none, "try"⟩, ⟨"bld-a", some 12, none, "try"⟩]
        none).2 =
      .ok [(keyOfRaw (envEcho.getBuildResp ⟨"bld-a", some 11, none, "try"⟩),
            _status_if_interrupted envEcho
              (envEcho.getBuildResp ⟨"bld-a", some 11, none, "try"⟩)),
           (keyOfRaw (envEcho.getBuildResp ⟨"bld-a", some 12, none, "try"⟩),
            _status_if_interrupted envEcho
              (envEcho.getBuildResp ⟨"bld-a", some 12, none, "try"⟩))] :=
  c8_map_keyed_by_resolved_identifier envEcho "bld-a" 11 12 none
    (by decide) (by decide) (by decide) rfl rfl (by decide) (by decide)
